import Mathlib

/-!
A verification development for the pill-detection application's core
pipeline: the count-stability monitor (WatermarkGenerator), the single-slot
camera frame hand-off (CameraThread), and the ordered audio notification
dispatcher (AudioManager).  Each Python method is embedded as a pure Lean
function on an explicit state record; wall-clock readings and the random
settle draw are passed in as parameters.
-/

/-- State of the count-stability monitor, mirroring the fields set up in
WatermarkGenerator.__init__ that the monitor logic reads or writes. -/
structure WatermarkGenerator where
  custom_text : String
  max_pill_count : Nat
  max_pill_frame : Nat
  frame_count : Nat
  current_pill_count : Nat
  target_pills : Nat
  target_reached : Bool
  target_start_time : Int
  target_stable_seconds : Int
  success_message_shown : Bool
  notification_triggered : Bool
  success_timestamp : String
deriving DecidableEq, Repr

/-- The state built by WatermarkGenerator.__init__. -/
def WatermarkGenerator.init : WatermarkGenerator :=
  { custom_text := "药片检测系统"
    max_pill_count := 0
    max_pill_frame := 0
    frame_count := 0
    current_pill_count := 0
    target_pills := 0
    target_reached := false
    target_start_time := 0
    target_stable_seconds := 0
    success_message_shown := false
    notification_triggered := false
    success_timestamp := "" }

/-- WatermarkGenerator.set_target_pills: stores the target and clears the
reached, success-shown and notification flags and the success timestamp.
It does not touch target_start_time or target_stable_seconds. -/
def WatermarkGenerator.set_target_pills (s : WatermarkGenerator) (count : Nat) :
    WatermarkGenerator :=
  { s with target_pills := count
           target_reached := false
           success_message_shown := false
           notification_triggered := false
           success_timestamp := "" }

/-- The bookkeeping prologue of WatermarkGenerator.update_stats: increment
frame_count, record the current count, and update the running maximum. -/
def WatermarkGenerator.bump (s : WatermarkGenerator) (pill_count : Nat) :
    WatermarkGenerator :=
  let s1 := { s with frame_count := s.frame_count + 1, current_pill_count := pill_count }
  if s1.max_pill_count < pill_count then
    { s1 with max_pill_count := pill_count, max_pill_frame := s1.frame_count }
  else s1

/-- WatermarkGenerator.update_stats.  now is the time.time() reading of this
call; r is the value random.randint(2, 5) would return on this call (used
only on the not-reached-to-reached transition, exactly as in the source);
the elapsed-time test is elapsed = now - target_start_time >=
target_stable_seconds.  Returns the decision flag and the updated state. -/
def WatermarkGenerator.update_stats (s : WatermarkGenerator) (now r : Int)
    (pill_count : Nat) : Bool × WatermarkGenerator :=
  let s2 := s.bump pill_count
  if 0 < s2.target_pills then
    if pill_count = s2.target_pills then
      if s2.target_reached = false then
        (false, { s2 with target_reached := true
                          target_start_time := now
                          target_stable_seconds := r
                          notification_triggered := false
                          success_message_shown := false })
      else if s2.success_message_shown = false ∧ s2.notification_triggered = false then
        if s2.target_stable_seconds ≤ now - s2.target_start_time then (true, s2)
        else (false, s2)
      else (false, s2)
    else
      (false, { s2 with target_reached := false
                        success_message_shown := false
                        notification_triggered := false
                        target_start_time := 0
                        success_timestamp := "" })
  else
    (false, { s2 with target_reached := false
                      success_message_shown := false
                      notification_triggered := false
                      success_timestamp := "" })

/-- WatermarkGenerator.mark_notification_triggered: stamp is the formatted
datetime.now() string recorded as success_timestamp. -/
def WatermarkGenerator.mark_notification_triggered (s : WatermarkGenerator)
    (stamp : String) : WatermarkGenerator :=
  { s with notification_triggered := true
           success_message_shown := true
           success_timestamp := stamp }

/-- WatermarkGenerator.reset_stats. -/
def WatermarkGenerator.reset_stats (s : WatermarkGenerator) : WatermarkGenerator :=
  { s with max_pill_count := 0
           max_pill_frame := 0
           frame_count := 0
           current_pill_count := 0
           target_reached := false
           success_message_shown := false
           notification_triggered := false
           success_timestamp := "" }

/-- One observation fed to the monitor: the time.time() reading of the call,
the random settle draw that call would make, the detected pill count, and
the datetime stamp that mark_notification_triggered would record. -/
structure Obs where
  time : Int
  rand : Int
  count : Nat
  stamp : String
deriving DecidableEq, Repr

/-- One tick of the caller protocol prescribed by the design: run
update_stats, and when it returns true immediately call
mark_notification_triggered (as PillDetectorApp does on every firing tick). -/
def protoStep (s : WatermarkGenerator) (ob : Obs) : WatermarkGenerator × Bool :=
  let res := s.update_stats ob.time ob.rand ob.count
  if res.1 then (res.2.mark_notification_triggered ob.stamp, true)
  else (res.2, false)

/-- Run the monitor under the prescribed protocol over a list of
observations, collecting the update_stats return values in order. -/
def protoRun (s : WatermarkGenerator) : List Obs → WatermarkGenerator × List Bool
  | [] => (s, [])
  | ob :: obs =>
    let st := protoStep s ob
    let rest := protoRun st.1 obs
    (rest.1, st.2 :: rest.2)

/-- Expected outputs over the tail of a run whose first observation armed the
monitor at time start with settle duration stable: false until the elapsed
time reaches stable, then a single true, then false forever. -/
def runStageOut (start stable : Int) : List Obs → List Bool
  | [] => []
  | o :: os =>
    if stable ≤ o.time - start then true :: os.map (fun _ => false)
    else false :: runStageOut start stable os

/-- The monitor is armed: an episode is in progress, not yet acknowledged,
with recorded start time and settle duration. -/
def Armed (s : WatermarkGenerator) (T : Nat) (start stable : Int) : Prop :=
  s.target_pills = T ∧ s.target_reached = true ∧ s.success_message_shown = false ∧
    s.notification_triggered = false ∧ s.target_start_time = start ∧
    s.target_stable_seconds = stable

/-- The monitor has fired and been acknowledged for the current episode. -/
def Acked (s : WatermarkGenerator) (T : Nat) : Prop :=
  s.target_pills = T ∧ s.target_reached = true ∧ s.success_message_shown = true

/-- State of the audio notification dispatcher (AudioManager fields
initialized, message_queue and is_speaking). -/
structure AudioManager where
  initialized : Bool
  message_queue : List String
  is_speaking : Bool
deriving DecidableEq, Repr

/-- Observable dispatcher events: a text handed to the speech engine, and a
finished-utterance completion delivered by the engine. -/
inductive AMEv where
  | played (text : String)
  | ended
deriving DecidableEq, Repr

/-- AudioManager._speak_direct: no-op when the engine is uninitialized,
otherwise raises is_speaking and hands the text to the engine. -/
def AudioManager.speak_direct (am : AudioManager) (text : String) :
    AudioManager × List AMEv :=
  if am.initialized = false then (am, [])
  else ({ am with is_speaking := true }, [AMEv.played text])

/-- AudioManager._process_next_message: when the queue is non-empty and
nothing is being spoken, pop the head and speak it. -/
def AudioManager.process_next_message (am : AudioManager) : AudioManager × List AMEv :=
  match am.message_queue, am.is_speaking with
  | m :: rest, false => AudioManager.speak_direct { am with message_queue := rest } m
  | _, _ => (am, [])

/-- The blank-text guard of AudioManager.speak: Python rejects None and any
text whose strip() is empty, i.e. every character is whitespace (the empty
string is also falsy and hits the same early return). -/
def textIsBlank : Option String → Bool
  | none => true
  | some t => t.data.all Char.isWhitespace

/-- AudioManager.speak: early return when uninitialized or the text is
blank; otherwise append to the queue and, if idle, start the next message. -/
def AudioManager.speak (am : AudioManager) (text : Option String) :
    AudioManager × List AMEv :=
  if am.initialized = false then (am, [])
  else
    match text with
    | none => (am, [])
    | some t =>
      if t.data.all Char.isWhitespace then (am, [])
      else
        let am1 := { am with message_queue := am.message_queue ++ [t] }
        if am1.is_speaking = false then am1.process_next_message
        else (am1, [])

/-- AudioManager._on_speech_end: clear is_speaking and, if messages are
pending, start the next one (the ended event records the completion). -/
def AudioManager.on_speech_end (am : AudioManager) : AudioManager × List AMEv :=
  let am1 := { am with is_speaking := false }
  if am1.message_queue.isEmpty then (am1, [AMEv.ended])
  else
    let r := am1.process_next_message
    (r.1, AMEv.ended :: r.2)

/-- The two operations that mutate dispatcher state: an enqueue from the
processing loop and a completion callback from the engine. -/
inductive AMOp where
  | speakOp (text : Option String)
  | speechEnd
deriving DecidableEq, Repr

/-- Apply one dispatcher operation. -/
def amStep (am : AudioManager) (op : AMOp) : AudioManager × List AMEv :=
  match op with
  | AMOp.speakOp t => am.speak t
  | AMOp.speechEnd => am.on_speech_end

/-- Run a whole interleaving of dispatcher operations, concatenating the
emitted events in order. -/
def amRun (am : AudioManager) : List AMOp → AudioManager × List AMEv
  | [] => (am, [])
  | op :: ops =>
    let st := amStep am op
    let rest := amRun st.1 ops
    (rest.1, st.2 ++ rest.2)

/-- The texts handed to the engine, in order. -/
def playedTexts : List AMEv → List String
  | [] => []
  | AMEv.played t :: evs => t :: playedTexts evs
  | AMEv.ended :: evs => playedTexts evs

/-- The non-blank texts an interleaving enqueues, in order. -/
def enqueuedTexts : List AMOp → List String
  | [] => []
  | AMOp.speakOp (some t) :: ops =>
    if t.data.all Char.isWhitespace then enqueuedTexts ops
    else t :: enqueuedTexts ops
  | AMOp.speakOp none :: ops => enqueuedTexts ops
  | AMOp.speechEnd :: ops => enqueuedTexts ops

/-- Single-flight check over an event trace: given the busy flag at the
start, a play may only begin while idle; returns the final busy flag when
the trace is serialized, none when two plays overlap. -/
def singleFlight : Bool → List AMEv → Option Bool
  | b, [] => some b
  | b, AMEv.played _ :: evs => if b then none else singleFlight true evs
  | _, AMEv.ended :: evs => singleFlight false evs

/-- Externally visible actions of one firing tick of the processing loop, in
source order. -/
inductive AppEvent where
  | beep
  | speakText (text : String)
  | markNotified
deriving DecidableEq, Repr

/-- PillDetectorApp._trigger_success_notification, in source order: play the
chime, enqueue the spoken announcement, then mark the watermark notified. -/
def trigger_success_notification (am : AudioManager) (w : WatermarkGenerator)
    (target : Nat) (stamp : String) :
    AudioManager × WatermarkGenerator × List AppEvent :=
  let msg := w.custom_text ++ toString target ++ "片发药成功"
  let amr := am.speak (some msg)
  let w1 := w.mark_notification_triggered stamp
  (amr.1, w1, [AppEvent.beep, AppEvent.speakText msg, AppEvent.markNotified])

/-- The detection branch of one PillDetectorApp._update_video tick: feed the
count to update_stats and, when it returns true, run
_trigger_success_notification. -/
def detect_tick (w : WatermarkGenerator) (am : AudioManager) (now r : Int)
    (pill_count target : Nat) (stamp : String) :
    WatermarkGenerator × AudioManager × List AppEvent :=
  let res := w.update_stats now r pill_count
  if res.1 then
    let t := trigger_success_notification am res.2 target stamp
    (t.2.1, t.1, t.2.2)
  else (res.2, am, [])

/-- State of the camera acquisition thread: the running flag, whether a
device handle was obtained, whether release() has been called on it, and
whether the thread of execution is still alive. -/
structure CameraThread where
  running : Bool
  camera_opened : Bool
  released : Bool
  thread_alive : Bool
deriving DecidableEq, Repr

/-- CameraThread.stop: clear running and release the device when one is
held.  The method contains no join on the thread, so thread_alive is left
unchanged. -/
def CameraThread.stop (c : CameraThread) : CameraThread :=
  { c with running := false
           released := if c.camera_opened then true else c.released }

/-- The producer side of the size-one frame queue in CameraThread.run: when
the slot is full the unread frame is discarded, then the new frame is
stored; the put never blocks because the producer is the only writer. -/
def slotWrite {α : Type} (slot : Option α) (frame : α) : Option α :=
  match slot with
  | some _ => some frame
  | none => some frame

/-- A burst of consecutive producer writes with no intervening reads. -/
def slotWrites {α : Type} (slot : Option α) : List α → Option α
  | [] => slot
  | f :: fs => slotWrites (slotWrite slot f) fs

/-- CameraThread.get_frame: non-blocking get that returns the frame and
empties the slot, or none when the slot is empty. -/
def get_frame {α : Type} (slot : Option α) : Option α × Option α :=
  match slot with
  | some f => (some f, none)
  | none => (none, none)

/-- Monitor states reachable under the prescribed call protocol: start at
construction; set_target_pills and reset_stats at will; update_stats at any
positive wall-clock time, with mark_notification_triggered called exactly
when update_stats returns true. -/
inductive MonitorReachable : WatermarkGenerator → Prop where
  | init : MonitorReachable WatermarkGenerator.init
  | set_target (s : WatermarkGenerator) (n : Nat) : MonitorReachable s →
      MonitorReachable (s.set_target_pills n)
  | reset (s : WatermarkGenerator) : MonitorReachable s →
      MonitorReachable s.reset_stats
  | observe_quiet (s : WatermarkGenerator) (now r : Int) (c : Nat) :
      MonitorReachable s → 0 < now → (s.update_stats now r c).1 = false →
      MonitorReachable (s.update_stats now r c).2
  | observe_fire (s : WatermarkGenerator) (now r : Int) (c : Nat) (stamp : String) :
      MonitorReachable s → 0 < now → (s.update_stats now r c).1 = true →
      MonitorReachable ((s.update_stats now r c).2.mark_notification_triggered stamp)

/-- The spec scenario for the settle logic: target 5, counts
5,5,5,4,5,5,5,5 sampled once per second, settle duration pinned at 2. -/
def c2Obs : List Obs :=
  [Obs.mk 0 2 5 "t", Obs.mk 1 2 5 "t", Obs.mk 2 2 5 "t", Obs.mk 3 2 4 "t",
   Obs.mk 4 2 5 "t", Obs.mk 5 2 5 "t", Obs.mk 6 2 5 "t", Obs.mk 7 2 5 "t"]

/-- A dispatcher that initialized successfully and is idle. -/
def amReady : AudioManager :=
  { initialized := true, message_queue := [], is_speaking := false }

/-- A monitor state mid-episode: target 2 set, then a count of 2 observed at
time 10 with settle draw 3. -/
def wTransitioned : WatermarkGenerator :=
  ((WatermarkGenerator.init.set_target_pills 2).update_stats 10 3 2).2

theorem bump_target_pills (s : WatermarkGenerator) (c : Nat) :
    (s.bump c).target_pills = s.target_pills := by
  unfold WatermarkGenerator.bump; dsimp only; split <;> rfl

theorem bump_target_reached (s : WatermarkGenerator) (c : Nat) :
    (s.bump c).target_reached = s.target_reached := by
  unfold WatermarkGenerator.bump; dsimp only; split <;> rfl

theorem bump_target_start_time (s : WatermarkGenerator) (c : Nat) :
    (s.bump c).target_start_time = s.target_start_time := by
  unfold WatermarkGenerator.bump; dsimp only; split <;> rfl

theorem bump_target_stable_seconds (s : WatermarkGenerator) (c : Nat) :
    (s.bump c).target_stable_seconds = s.target_stable_seconds := by
  unfold WatermarkGenerator.bump; dsimp only; split <;> rfl

theorem bump_success_message_shown (s : WatermarkGenerator) (c : Nat) :
    (s.bump c).success_message_shown = s.success_message_shown := by
  unfold WatermarkGenerator.bump; dsimp only; split <;> rfl

theorem bump_notification_triggered (s : WatermarkGenerator) (c : Nat) :
    (s.bump c).notification_triggered = s.notification_triggered := by
  unfold WatermarkGenerator.bump; dsimp only; split <;> rfl

theorem bump_success_timestamp (s : WatermarkGenerator) (c : Nat) :
    (s.bump c).success_timestamp = s.success_timestamp := by
  unfold WatermarkGenerator.bump; dsimp only; split <;> rfl

theorem update_stats_transition (s : WatermarkGenerator) (now r : Int) (c : Nat)
    (hT : 0 < s.target_pills) (hc : c = s.target_pills) (hr : s.target_reached = false) :
    s.update_stats now r c =
      (false, { s.bump c with target_reached := true
                              target_start_time := now
                              target_stable_seconds := r
                              notification_triggered := false
                              success_message_shown := false }) := by
  simp [WatermarkGenerator.update_stats, bump_target_pills, bump_target_reached,
    hT, hc, hr]

theorem update_stats_armed (s : WatermarkGenerator) (now r : Int) (c : Nat)
    (hT : 0 < s.target_pills) (hc : c = s.target_pills) (hr : s.target_reached = true)
    (hm : s.success_message_shown = false) (hn : s.notification_triggered = false) :
    s.update_stats now r c =
      (decide (s.target_stable_seconds ≤ now - s.target_start_time), s.bump c) := by
  by_cases he : s.target_stable_seconds ≤ now - s.target_start_time <;>
    simp [WatermarkGenerator.update_stats, bump_target_pills, bump_target_reached,
      bump_success_message_shown, bump_notification_triggered,
      bump_target_stable_seconds, bump_target_start_time, hT, hc, hr, hm, hn, he]

theorem update_stats_done (s : WatermarkGenerator) (now r : Int) (c : Nat)
    (hT : 0 < s.target_pills) (hc : c = s.target_pills) (hr : s.target_reached = true)
    (hd : s.success_message_shown = true ∨ s.notification_triggered = true) :
    s.update_stats now r c = (false, s.bump c) := by
  rcases hd with hd | hd <;>
    simp [WatermarkGenerator.update_stats, bump_target_pills, bump_target_reached,
      bump_success_message_shown, bump_notification_triggered, hT, hc, hr, hd]

theorem update_stats_diverge (s : WatermarkGenerator) (now r : Int) (c : Nat)
    (hT : 0 < s.target_pills) (hc : c ≠ s.target_pills) :
    s.update_stats now r c =
      (false, { s.bump c with target_reached := false
                              success_message_shown := false
                              notification_triggered := false
                              target_start_time := 0
                              success_timestamp := "" }) := by
  simp [WatermarkGenerator.update_stats, bump_target_pills, hT, hc]

theorem update_stats_disabled (s : WatermarkGenerator) (now r : Int) (c : Nat)
    (hT : s.target_pills = 0) :
    s.update_stats now r c =
      (false, { s.bump c with target_reached := false
                              success_message_shown := false
                              notification_triggered := false
                              success_timestamp := "" }) := by
  simp [WatermarkGenerator.update_stats, bump_target_pills, hT]

theorem update_stats_preserves_pills (s : WatermarkGenerator) (now r : Int) (c : Nat) :
    (s.update_stats now r c).2.target_pills = s.target_pills := by
  unfold WatermarkGenerator.update_stats
  dsimp only
  split_ifs <;> simp [bump_target_pills]

theorem mark_preserves_pills (s : WatermarkGenerator) (stamp : String) :
    (s.mark_notification_triggered stamp).target_pills = s.target_pills := rfl

theorem mark_preserves_reached (s : WatermarkGenerator) (stamp : String) :
    (s.mark_notification_triggered stamp).target_reached = s.target_reached := rfl

theorem protoStep_preserves_pills (s : WatermarkGenerator) (ob : Obs) :
    (protoStep s ob).1.target_pills = s.target_pills := by
  unfold protoStep
  dsimp only
  split
  · rw [mark_preserves_pills, update_stats_preserves_pills]
  · rw [update_stats_preserves_pills]

theorem protoRun_preserves_pills (l : List Obs) (s : WatermarkGenerator) :
    (protoRun s l).1.target_pills = s.target_pills := by
  induction l generalizing s with
  | nil => rfl
  | cons ob obs ih =>
    show (protoRun (protoStep s ob).1 obs).1.target_pills = s.target_pills
    rw [ih, protoStep_preserves_pills]

theorem protoRun_length (l : List Obs) (s : WatermarkGenerator) :
    (protoRun s l).2.length = l.length := by
  induction l generalizing s with
  | nil => rfl
  | cons ob obs ih =>
    show ((protoStep s ob).2 :: (protoRun (protoStep s ob).1 obs).2).length = obs.length + 1
    rw [List.length_cons, ih]

theorem protoRun_append (l1 l2 : List Obs) (s : WatermarkGenerator) :
    protoRun s (l1 ++ l2) =
      ((protoRun (protoRun s l1).1 l2).1,
        (protoRun s l1).2 ++ (protoRun (protoRun s l1).1 l2).2) := by
  induction l1 generalizing s with
  | nil => simp [protoRun]
  | cons ob obs ih => simp [protoRun, ih]

theorem run_acked (T : Nat) (hT : 0 < T) (l : List Obs)
    (hl : ∀ o ∈ l, o.count = T) (s : WatermarkGenerator) (h : Acked s T) :
    (protoRun s l).2 = l.map (fun _ => false) ∧ Acked (protoRun s l).1 T := by
  induction l generalizing s with
  | nil => exact ⟨rfl, h⟩
  | cons o os ih =>
    obtain ⟨hp, hr, hm⟩ := h
    have hstep : s.update_stats o.time o.rand o.count = (false, s.bump o.count) :=
      update_stats_done s o.time o.rand o.count (hp ▸ hT)
        (by rw [hp]; exact hl o (List.mem_cons_self o os)) hr (Or.inl hm)
    have hps : protoStep s o = (s.bump o.count, false) := by
      simp [protoStep, hstep]
    have hacked : Acked (s.bump o.count) T :=
      ⟨by rw [bump_target_pills]; exact hp,
       by rw [bump_target_reached]; exact hr,
       by rw [bump_success_message_shown]; exact hm⟩
    have ih2 := ih (fun o ho => hl o (List.mem_cons_of_mem _ ho)) (s.bump o.count) hacked
    have hrw : protoRun s (o :: os) =
        ((protoRun (s.bump o.count) os).1, false :: (protoRun (s.bump o.count) os).2) := by
      simp [protoRun, hps]
    rw [hrw]
    exact ⟨by simp [ih2.1], ih2.2⟩

theorem run_armed (T : Nat) (hT : 0 < T) (start stable : Int) (l : List Obs)
    (hl : ∀ o ∈ l, o.count = T) (s : WatermarkGenerator) (h : Armed s T start stable) :
    (protoRun s l).2 = runStageOut start stable l := by
  induction l generalizing s with
  | nil => rfl
  | cons o os ih =>
    obtain ⟨hp, hr, hm, hn, hstt, hsts⟩ := h
    have hco : o.count = T := hl o (List.mem_cons_self o os)
    have hstep : s.update_stats o.time o.rand o.count =
        (decide (stable ≤ o.time - start), s.bump o.count) := by
      rw [update_stats_armed s o.time o.rand o.count (hp ▸ hT) (by rw [hp]; exact hco)
        hr hm hn, hstt, hsts]
    by_cases he : stable ≤ o.time - start
    · have hps : protoStep s o =
          ((s.bump o.count).mark_notification_triggered o.stamp, true) := by
        simp [protoStep, hstep, he]
      have hacked : Acked ((s.bump o.count).mark_notification_triggered o.stamp) T :=
        ⟨by rw [mark_preserves_pills, bump_target_pills]; exact hp,
         by rw [mark_preserves_reached, bump_target_reached]; exact hr,
         rfl⟩
      have hdone := run_acked T hT os (fun o ho => hl o (List.mem_cons_of_mem _ ho))
        _ hacked
      have hrw : protoRun s (o :: os) =
          ((protoRun ((s.bump o.count).mark_notification_triggered o.stamp) os).1,
            true :: (protoRun ((s.bump o.count).mark_notification_triggered o.stamp)
              os).2) := by
        simp [protoRun, hps]
      rw [hrw]
      simp [runStageOut, he, hdone.1]
    · have hps : protoStep s o = (s.bump o.count, false) := by
        simp [protoStep, hstep, he]
      have harmed : Armed (s.bump o.count) T start stable :=
        ⟨by rw [bump_target_pills]; exact hp,
         by rw [bump_target_reached]; exact hr,
         by rw [bump_success_message_shown]; exact hm,
         by rw [bump_notification_triggered]; exact hn,
         by rw [bump_target_start_time]; exact hstt,
         by rw [bump_target_stable_seconds]; exact hsts⟩
      have ih2 := ih (fun o ho => hl o (List.mem_cons_of_mem _ ho)) _ harmed
      have hrw : protoRun s (o :: os) =
          ((protoRun (s.bump o.count) os).1, false :: (protoRun (s.bump o.count) os).2) := by
        simp [protoRun, hps]
      rw [hrw]
      simp [runStageOut, he, ih2]

theorem run_clean (T : Nat) (hT : 0 < T) (a : Obs) (rest : List Obs)
    (ha : a.count = T) (hrest : ∀ o ∈ rest, o.count = T) (s : WatermarkGenerator)
    (hp : s.target_pills = T) (hr : s.target_reached = false) :
    (protoRun s (a :: rest)).2 = false :: runStageOut a.time a.rand rest := by
  have hstep := update_stats_transition s a.time a.rand a.count (hp ▸ hT)
    (by rw [hp]; exact ha) hr
  have h2 : (protoStep s a).2 = false := by simp [protoStep, hstep]
  have harmed : Armed (protoStep s a).1 T a.time a.rand := by
    refine ⟨?_, ?_, ?_, ?_, ?_, ?_⟩ <;>
      simp [protoStep, hstep, Armed, bump_target_pills, hp]
  have hrw : protoRun s (a :: rest) =
      ((protoRun (protoStep s a).1 rest).1,
        false :: (protoRun (protoStep s a).1 rest).2) := by
    simp only [protoRun]
    rw [h2]
  rw [hrw]
  rw [run_armed T hT a.time a.rand rest hrest _ harmed]

theorem map_false_count (os : List Obs) :
    (os.map (fun _ => false)).count true = 0 := by
  induction os with
  | nil => rfl
  | cons o os ih => simpa using ih

theorem runStageOut_count (start stable : Int) (l : List Obs) :
    (runStageOut start stable l).count true ≤ 1 := by
  induction l with
  | nil => simp [runStageOut]
  | cons o os ih =>
    by_cases he : stable ≤ o.time - start
    · simp [runStageOut, he, List.count_replicate]
    · simpa [runStageOut, he] using ih

theorem mem_zip_map_false (p : Obs × Bool) (os : List Obs)
    (hp : p ∈ os.zip (os.map fun _ => false)) : p.2 = false := by
  obtain ⟨a, b⟩ := p
  have hm := (List.of_mem_zip hp).2
  simp at hm
  exact hm.2

theorem stage_zip_settle (start stable : Int) (l : List Obs) :
    ∀ p ∈ l.zip (runStageOut start stable l), p.2 = true → stable ≤ p.1.time - start := by
  induction l with
  | nil => intro p hp; simp [runStageOut] at hp
  | cons o os ih =>
    intro p hp htrue
    by_cases he : stable ≤ o.time - start
    · rw [runStageOut, if_pos he] at hp
      rw [List.zip_cons_cons, List.mem_cons] at hp
      rcases hp with hp | hp
      · rw [hp]; exact he
      · exact absurd htrue (by rw [mem_zip_map_false p os hp]; simp)
    · rw [runStageOut, if_neg he] at hp
      rw [List.zip_cons_cons, List.mem_cons] at hp
      rcases hp with hp | hp
      · rw [hp] at htrue; simp at htrue
      · exact ih p hp htrue

theorem stage_zip_before (start stable : Int) (l : List Obs) :
    ∀ p ∈ l.zip (runStageOut start stable l),
      p.1.time - start < stable → p.2 = false := by
  induction l with
  | nil => intro p hp; simp [runStageOut] at hp
  | cons o os ih =>
    intro p hp hlt
    by_cases he : stable ≤ o.time - start
    · rw [runStageOut, if_pos he] at hp
      rw [List.zip_cons_cons, List.mem_cons] at hp
      rcases hp with hp | hp
      · rw [hp] at hlt; exact absurd he (not_le.mpr hlt)
      · exact mem_zip_map_false p os hp
    · rw [runStageOut, if_neg he] at hp
      rw [List.zip_cons_cons, List.mem_cons] at hp
      rcases hp with hp | hp
      · rw [hp]
      · exact ih p hp hlt

theorem reached_false_after_diverge (T : Nat) (hT : 0 < T) (p : List Obs) (lob : Obs)
    (hl : lob.count ≠ T) (s : WatermarkGenerator) (hp : s.target_pills = T) :
    (protoRun s (p ++ [lob])).1.target_reached = false ∧
      (protoRun s (p ++ [lob])).1.target_pills = T := by
  rw [protoRun_append]
  have hp1 : (protoRun s p).1.target_pills = T := by
    rw [protoRun_preserves_pills]; exact hp
  have hstep := update_stats_diverge (protoRun s p).1 lob.time lob.rand lob.count
    (hp1 ▸ hT) (by rw [hp1]; exact hl)
  have hps : protoStep (protoRun s p).1 lob =
      ({ (protoRun s p).1.bump lob.count with
          target_reached := false
          success_message_shown := false
          notification_triggered := false
          target_start_time := 0
          success_timestamp := "" }, false) := by
    simp [protoStep, hstep]
  constructor
  · show (protoRun (protoStep (protoRun s p).1 lob).1 []).1.target_reached = false
    rw [hps]
    rfl
  · show (protoRun (protoStep (protoRun s p).1 lob).1 []).1.target_pills = T
    rw [hps]
    show ((protoRun s p).1.bump lob.count).target_pills = T
    rw [bump_target_pills]
    exact hp1

/-- C1: for any observation sequence with fixed target T greater than 0
processed under the prescribed protocol (mark_notification_triggered called
immediately on every true return), the outputs over a maximal contiguous run
of count-equal-to-T observations (a run opening either at the start of the
sequence or right after a non-T observation, here the segment from a on)
contain at most one true, every true comes at an observation whose time is
at least the settle duration drawn at the run's first observation past the
run's start time, and every observation of the run strictly before that
threshold outputs false. -/
theorem c1_monitor_once_per_run (T : Nat) (hT : 0 < T) (pre : List Obs) (a : Obs)
    (rest : List Obs)
    (hpre : pre = [] ∨ ∃ p lob, pre = p ++ [lob] ∧ lob.count ≠ T)
    (ha : a.count = T) (hrest : ∀ o ∈ rest, o.count = T) :
    ((protoRun (WatermarkGenerator.init.set_target_pills T)
        (pre ++ a :: rest)).2.drop pre.length).count true ≤ 1 ∧
    (∀ p ∈ (a :: rest).zip ((protoRun (WatermarkGenerator.init.set_target_pills T)
        (pre ++ a :: rest)).2.drop pre.length),
      p.2 = true → a.rand ≤ p.1.time - a.time) ∧
    (∀ p ∈ (a :: rest).zip ((protoRun (WatermarkGenerator.init.set_target_pills T)
        (pre ++ a :: rest)).2.drop pre.length),
      p.1.time - a.time < a.rand → p.2 = false) := by
  have hstate : (protoRun (WatermarkGenerator.init.set_target_pills T) pre).1.target_pills
        = T ∧
      (protoRun (WatermarkGenerator.init.set_target_pills T) pre).1.target_reached
        = false := by
    rcases hpre with h | ⟨p, lob, hpe, hlc⟩
    · subst h; exact ⟨rfl, rfl⟩
    · subst hpe
      have hd := reached_false_after_diverge T hT p lob hlc
        (WatermarkGenerator.init.set_target_pills T) rfl
      exact ⟨hd.2, hd.1⟩
  have hdrop : ((protoRun (WatermarkGenerator.init.set_target_pills T)
      (pre ++ a :: rest)).2.drop pre.length) =
      false :: runStageOut a.time a.rand rest := by
    rw [protoRun_append, List.drop_left' (protoRun_length pre _),
      run_clean T hT a rest ha hrest _ hstate.1 hstate.2]
  refine ⟨?_, ?_, ?_⟩
  · rw [hdrop]
    simpa using runStageOut_count a.time a.rand rest
  · rw [hdrop]
    intro p hp htrue
    rw [List.zip_cons_cons, List.mem_cons] at hp
    rcases hp with hp | hp
    · rw [hp] at htrue; simp at htrue
    · exact stage_zip_settle a.time a.rand rest p hp htrue
  · rw [hdrop]
    intro p hp hlt
    rw [List.zip_cons_cons, List.mem_cons] at hp
    rcases hp with hp | hp
    · rw [hp]
    · exact stage_zip_before a.time a.rand rest p hp hlt

/-- Witness for C1 at a concrete run: target 5, an empty prefix and the run
of three count-5 observations at times 0, 1, 2 with settle draw 2. -/
theorem c1_monitor_once_per_run_witness :
    ((protoRun (WatermarkGenerator.init.set_target_pills 5)
        ([] ++ Obs.mk 0 2 5 "t" :: [Obs.mk 1 9 5 "t", Obs.mk 2 9 5 "t"])).2.drop
        (List.length ([] : List Obs))).count true ≤ 1 :=
  (c1_monitor_once_per_run 5 (by decide) [] (Obs.mk 0 2 5 "t")
    [Obs.mk 1 9 5 "t", Obs.mk 2 9 5 "t"] (Or.inl rfl) rfl (by decide)).1

theorem bump_custom_text (s : WatermarkGenerator) (c : Nat) :
    (s.bump c).custom_text = s.custom_text := by
  unfold WatermarkGenerator.bump; dsimp only; split <;> rfl

theorem update_stats_preserves_custom_text (s : WatermarkGenerator) (now r : Int)
    (c : Nat) : (s.update_stats now r c).2.custom_text = s.custom_text := by
  unfold WatermarkGenerator.update_stats
  dsimp only
  split_ifs <;> simp [bump_custom_text]

/-- C2 counterexample: in the spec scenario (target 5, counts 5,5,5,4,5,5,5,5
once per second, settle pinned at 2 seconds) the monitor also fires at the
3rd frame — the first run's 3rd consecutive 5 already has 2 seconds elapsed
and the source tests elapsed greater-or-equal settle — contradicting the
claim that it does not fire at the 3rd frame. -/
theorem c2_counterexample_fires_at_third :
    ((protoRun (WatermarkGenerator.init.set_target_pills 5) c2Obs).2.get? 2
      = some true) := by decide

/-- C2 amended: in the scenario the monitor fires exactly twice, at the 3rd
frame (3rd consecutive 5 of the first run, elapsed 2 at least settle 2) and
at the 7th frame (3rd consecutive 5 of the second run), and nowhere else. -/
theorem c2_fires_at_third_and_seventh :
    (protoRun (WatermarkGenerator.init.set_target_pills 5) c2Obs).2 =
      [false, false, true, false, false, false, true, false] := by decide

/-- C3 counterexample: on a concrete firing tick the emitted action order of
_trigger_success_notification puts mark_notification_triggered after the
speak enqueue, so markNotified does not happen before the enqueue. -/
theorem c3_counterexample_mark_after_enqueue :
    (wTransitioned.update_stats 13 9 2).1 = true ∧
    ¬ ((detect_tick wTransitioned amReady 13 9 2 2 "done").2.2.indexOf
          AppEvent.markNotified <
        (detect_tick wTransitioned amReady 13 9 2 2 "done").2.2.indexOf
          (AppEvent.speakText ("药片检测系统" ++ toString 2 ++ "片发药成功"))) := by
  decide

/-- C3 amended: on every tick where update_stats returns true the loop plays
the chime, enqueues the announcement on the dispatcher, and only then calls
mark_notification_triggered — the mark still lands within the same tick,
before the next observe call, but after the enqueue, not before it. -/
theorem c3_amended_enqueue_then_mark (w : WatermarkGenerator) (am : AudioManager)
    (now r : Int) (c target : Nat) (stamp : String)
    (hfire : (w.update_stats now r c).1 = true) :
    (detect_tick w am now r c target stamp).2.2 =
      [AppEvent.beep,
       AppEvent.speakText (w.custom_text ++ toString target ++ "片发药成功"),
       AppEvent.markNotified] ∧
    (detect_tick w am now r c target stamp).1.notification_triggered = true := by
  have hct := update_stats_preserves_custom_text w now r c
  constructor
  · simp [detect_tick, trigger_success_notification, hfire, hct]
  · simp [detect_tick, trigger_success_notification, hfire,
      WatermarkGenerator.mark_notification_triggered]

/-- Witness for C3's amended theorem at a concrete firing tick. -/
theorem c3_amended_witness :
    (detect_tick wTransitioned amReady 13 9 2 2 "done").2.2 =
      [AppEvent.beep,
       AppEvent.speakText (wTransitioned.custom_text ++ toString 2 ++ "片发药成功"),
       AppEvent.markNotified] ∧
    (detect_tick wTransitioned amReady 13 9 2 2 "done").1.notification_triggered
      = true :=
  c3_amended_enqueue_then_mark wTransitioned amReady 13 9 2 2 "done" (by decide)

/-- C4 counterexample: from a mid-episode state whose settle draw was 3, a
diverging count clears the flags and the start time but leaves the stored
settle duration at 3 (its cleared value would be 0), so not all transient
episode state is reset. -/
theorem c4_counterexample_stable_not_reset :
    (wTransitioned.update_stats 11 4 1).1 = false ∧
    (wTransitioned.update_stats 11 4 1).2.target_reached = false ∧
    (wTransitioned.update_stats 11 4 1).2.target_stable_seconds = 3 := by decide

/-- C4 amended: a diverging count resets the reached, shown and notification
flags, the episode start time and the success timestamp — everything except
the stored settle duration, which keeps its old value; a later equality
transition starts a new episode drawing a fresh settle duration (the draw of
that very call) and recording that call's time; and while an episode is in
progress the settle duration and start time are never re-rolled. -/
theorem c4_amended_reset_and_fresh_draw (s : WatermarkGenerator) (now r : Int)
    (c : Nat) (hT : 0 < s.target_pills) :
    (c ≠ s.target_pills →
      (s.update_stats now r c).1 = false ∧
      (s.update_stats now r c).2.target_reached = false ∧
      (s.update_stats now r c).2.success_message_shown = false ∧
      (s.update_stats now r c).2.notification_triggered = false ∧
      (s.update_stats now r c).2.target_start_time = 0 ∧
      (s.update_stats now r c).2.success_timestamp = "" ∧
      (s.update_stats now r c).2.target_stable_seconds = s.target_stable_seconds) ∧
    (c = s.target_pills → s.target_reached = false →
      (s.update_stats now r c).2.target_stable_seconds = r ∧
      (s.update_stats now r c).2.target_start_time = now ∧
      (s.update_stats now r c).2.target_reached = true) ∧
    (c = s.target_pills → s.target_reached = true →
      (s.update_stats now r c).2.target_stable_seconds = s.target_stable_seconds ∧
      (s.update_stats now r c).2.target_start_time = s.target_start_time) := by
  refine ⟨?_, ?_, ?_⟩
  · intro hc
    rw [update_stats_diverge s now r c hT hc]
    simp [bump_target_stable_seconds]
  · intro hc hre
    rw [update_stats_transition s now r c hT hc hre]
    simp
  · intro hc hre
    rcases Bool.eq_false_or_eq_true s.success_message_shown with hm | hm
    · rw [update_stats_done s now r c hT hc hre (Or.inl hm)]
      simp [bump_target_stable_seconds, bump_target_start_time]
    · rcases Bool.eq_false_or_eq_true s.notification_triggered with hn | hn
      · rw [update_stats_done s now r c hT hc hre (Or.inr hn)]
        simp [bump_target_stable_seconds, bump_target_start_time]
      · rw [update_stats_armed s now r c hT hc hre hm hn]
        simp [bump_target_stable_seconds, bump_target_start_time]

/-- Witness for C4's amended theorem: the divergence case at the concrete
mid-episode state. -/
theorem c4_amended_witness :
    (wTransitioned.update_stats 11 4 1).2.target_stable_seconds =
      wTransitioned.target_stable_seconds :=
  ((c4_amended_reset_and_fresh_draw wTransitioned 11 4 1 (by decide)).1
    (by decide)).2.2.2.2.2.2

/-- C5 counterexample: from a mid-episode state with start time 10 and settle
draw 3, set_target_pills leaves both timer fields untouched (their cleared
values would be 0), so it does not reset the timers. -/
theorem c5_counterexample_timers_not_reset :
    (wTransitioned.set_target_pills 4).target_start_time = 10 ∧
    (wTransitioned.set_target_pills 4).target_stable_seconds = 3 := by decide

theorem run_disabled (obs : List Obs) (s : WatermarkGenerator)
    (h : s.target_pills = 0) :
    (protoRun s obs).2.all (fun b => !b) = true := by
  induction obs generalizing s with
  | nil => rfl
  | cons o os ih =>
    have hstep := update_stats_disabled s o.time o.rand o.count h
    have hps : protoStep s o =
        ({ s.bump o.count with target_reached := false
                               success_message_shown := false
                               notification_triggered := false
                               success_timestamp := "" }, false) := by
      simp [protoStep, hstep]
    have hrw : protoRun s (o :: os) =
        ((protoRun (protoStep s o).1 os).1,
          false :: (protoRun (protoStep s o).1 os).2) := by
      simp only [protoRun]
      rw [show (protoStep s o).2 = false from by rw [hps]]
    rw [hrw]
    have hpills : (protoStep s o).1.target_pills = 0 := by
      rw [hps]
      show (s.bump o.count).target_pills = 0
      rw [bump_target_pills]; exact h
    simpa using ih (protoStep s o).1 hpills

/-- C5 amended: set_target_pills stores the target and resets the reached,
success-shown and notification flags and the success timestamp, but leaves
the episode start time and settle duration fields unchanged (they are only
read while the reached flag is set and are overwritten at the next equality
transition); and setting the target to 0 disables the feature: every
subsequent update_stats call returns false whatever the counts. -/
theorem c5_amended_set_target :
    (∀ (s : WatermarkGenerator) (n : Nat),
      (s.set_target_pills n).target_pills = n ∧
      (s.set_target_pills n).target_reached = false ∧
      (s.set_target_pills n).success_message_shown = false ∧
      (s.set_target_pills n).notification_triggered = false ∧
      (s.set_target_pills n).success_timestamp = "" ∧
      (s.set_target_pills n).target_start_time = s.target_start_time ∧
      (s.set_target_pills n).target_stable_seconds = s.target_stable_seconds) ∧
    (∀ (s : WatermarkGenerator) (obs : List Obs),
      (protoRun (s.set_target_pills 0) obs).2.all (fun b => !b) = true) := by
  constructor
  · intro s n
    exact ⟨rfl, rfl, rfl, rfl, rfl, rfl, rfl⟩
  · intro s obs
    exact run_disabled obs (s.set_target_pills 0) rfl

/-- C6: the single-slot hand-off keeps exactly the most recent of any burst
of producer writes (older unread frames are discarded, the write is total so
the producer never blocks); the one stored frame is retrievable exactly
once, and reading an empty or never-written slot yields none, not an
error. -/
theorem c6_single_slot (α : Type) (q0 : Option α) (fs : List α) (f : α) :
    slotWrites q0 (fs ++ [f]) = some f ∧
    get_frame (slotWrites q0 (fs ++ [f])) = (some f, none) ∧
    get_frame (get_frame (slotWrites q0 (fs ++ [f]))).2 = (none, none) ∧
    get_frame (none : Option α) = (none, none) := by
  have hlast : ∀ (l : List α) (q : Option α), slotWrites q (l ++ [f]) = some f := by
    intro l
    induction l with
    | nil => intro q; cases q <;> rfl
    | cons x xs ih => intro q; exact ih _
  refine ⟨hlast fs q0, ?_, ?_, rfl⟩
  · rw [hlast fs q0]; rfl
  · rw [hlast fs q0]; rfl

theorem speak_direct_initialized (am : AudioManager) (t : String) :
    (am.speak_direct t).1.initialized = am.initialized := by
  unfold AudioManager.speak_direct; split <;> rfl

theorem process_next_initialized (am : AudioManager) :
    am.process_next_message.1.initialized = am.initialized := by
  unfold AudioManager.process_next_message
  split
  · rw [speak_direct_initialized]
  · rfl

theorem speak_initialized (am : AudioManager) (t : Option String) :
    (am.speak t).1.initialized = am.initialized := by
  unfold AudioManager.speak
  split
  · rfl
  · match t with
    | none => rfl
    | some t =>
      dsimp only
      split
      · rfl
      · split
        · rw [process_next_initialized]
        · rfl

theorem on_speech_end_initialized (am : AudioManager) :
    am.on_speech_end.1.initialized = am.initialized := by
  unfold AudioManager.on_speech_end
  dsimp only
  split
  · rfl
  · rw [process_next_initialized]

theorem amStep_initialized (am : AudioManager) (op : AMOp) :
    (amStep am op).1.initialized = am.initialized := by
  cases op with
  | speakOp t => exact speak_initialized am t
  | speechEnd => exact on_speech_end_initialized am

theorem amStep_conserves (am : AudioManager) (op : AMOp) (h : am.initialized = true) :
    playedTexts (amStep am op).2 ++ (amStep am op).1.message_queue =
      am.message_queue ++ enqueuedTexts [op] := by
  cases op with
  | speakOp t =>
    cases t with
    | none => simp [amStep, AudioManager.speak, h, enqueuedTexts, playedTexts]
    | some t =>
      by_cases hb : t.data.all Char.isWhitespace
      · simp [amStep, AudioManager.speak, h, hb, enqueuedTexts, playedTexts]
      · by_cases hs : am.is_speaking = false
        · cases hq : am.message_queue with
          | nil =>
            simp [amStep, AudioManager.speak, AudioManager.process_next_message,
              AudioManager.speak_direct, h, hb, hs, hq, enqueuedTexts, playedTexts]
          | cons m rest =>
            simp [amStep, AudioManager.speak, AudioManager.process_next_message,
              AudioManager.speak_direct, h, hb, hs, hq, enqueuedTexts, playedTexts]
        · simp [amStep, AudioManager.speak, h, hb, hs, enqueuedTexts, playedTexts]
  | speechEnd =>
    cases hq : am.message_queue with
    | nil =>
      simp [amStep, AudioManager.on_speech_end, AudioManager.process_next_message,
        hq, enqueuedTexts, playedTexts]
    | cons m rest =>
      simp [amStep, AudioManager.on_speech_end, AudioManager.process_next_message,
        AudioManager.speak_direct, h, hq, enqueuedTexts, playedTexts]

theorem amStep_singleFlight (am : AudioManager) (op : AMOp) (h : am.initialized = true) :
    singleFlight am.is_speaking (amStep am op).2 = some (amStep am op).1.is_speaking := by
  cases op with
  | speakOp t =>
    cases t with
    | none => simp [amStep, AudioManager.speak, h, singleFlight]
    | some t =>
      by_cases hb : t.data.all Char.isWhitespace
      · simp [amStep, AudioManager.speak, h, hb, singleFlight]
      · by_cases hs : am.is_speaking = false
        · cases hq : am.message_queue with
          | nil =>
            simp [amStep, AudioManager.speak, AudioManager.process_next_message,
              AudioManager.speak_direct, h, hb, hs, hq, singleFlight]
          | cons m rest =>
            simp [amStep, AudioManager.speak, AudioManager.process_next_message,
              AudioManager.speak_direct, h, hb, hs, hq, singleFlight]
        · have hs' : am.is_speaking = true := by
            revert hs; cases am.is_speaking <;> simp
          simp [amStep, AudioManager.speak, h, hb, hs', singleFlight]
  | speechEnd =>
    cases hq : am.message_queue with
    | nil =>
      simp [amStep, AudioManager.on_speech_end, AudioManager.process_next_message,
        hq, singleFlight]
    | cons m rest =>
      simp [amStep, AudioManager.on_speech_end, AudioManager.process_next_message,
        AudioManager.speak_direct, h, hq, singleFlight]

theorem playedTexts_append (e1 e2 : List AMEv) :
    playedTexts (e1 ++ e2) = playedTexts e1 ++ playedTexts e2 := by
  induction e1 with
  | nil => rfl
  | cons e es ih => cases e <;> simp [playedTexts, ih]

theorem singleFlight_append (e1 e2 : List AMEv) (b : Bool) :
    singleFlight b (e1 ++ e2) =
      (singleFlight b e1).bind (fun b2 => singleFlight b2 e2) := by
  induction e1 generalizing b with
  | nil => rfl
  | cons e es ih =>
    cases e with
    | played t =>
      cases b with
      | false => simpa [singleFlight] using ih true
      | true => simp [singleFlight]
    | ended => simpa [singleFlight] using ih false

theorem enqueuedTexts_cons (op : AMOp) (ops : List AMOp) :
    enqueuedTexts (op :: ops) = enqueuedTexts [op] ++ enqueuedTexts ops := by
  cases op with
  | speakOp t =>
    cases t with
    | none => rfl
    | some t =>
      by_cases hb : t.data.all Char.isWhitespace <;> simp [enqueuedTexts, hb]
  | speechEnd => rfl

/-- C7: over every interleaving of enqueues and completion callbacks on an
initialized dispatcher, the played texts followed by the still-pending queue
equal the initial queue followed by the enqueued texts in order — so items
play in strict FIFO enqueue order, nothing is dropped, dequeued items are
never re-queued, and identical consecutive texts each keep their own slot
(no deduplication) — and the event trace is single-flight: a play only ever
starts while no other item is playing. -/
theorem c7_dispatcher_invariants (am : AudioManager) (ops : List AMOp)
    (h : am.initialized = true) :
    playedTexts (amRun am ops).2 ++ (amRun am ops).1.message_queue =
      am.message_queue ++ enqueuedTexts ops ∧
    singleFlight am.is_speaking (amRun am ops).2 =
      some (amRun am ops).1.is_speaking := by
  induction ops generalizing am with
  | nil => exact ⟨by simp [amRun, playedTexts, enqueuedTexts], rfl⟩
  | cons op ops ih =>
    have h1 : (amStep am op).1.initialized = true := by
      rw [amStep_initialized]; exact h
    have ihs := ih (amStep am op).1 h1
    have hrw : amRun am (op :: ops) =
        ((amRun (amStep am op).1 ops).1,
          (amStep am op).2 ++ (amRun (amStep am op).1 ops).2) := rfl
    rw [hrw]
    constructor
    · dsimp only
      rw [playedTexts_append, enqueuedTexts_cons, List.append_assoc, ihs.1,
        ← List.append_assoc, amStep_conserves am op h, List.append_assoc]
    · dsimp only
      rw [singleFlight_append, amStep_singleFlight am op h]
      simpa using ihs.2

/-- Witness for C7: three enqueues (with a repeated text) and three
completions from the idle initialized dispatcher. -/
theorem c7_witness :
    playedTexts (amRun amReady [AMOp.speakOp (some "a"), AMOp.speakOp (some "b"),
        AMOp.speakOp (some "a"), AMOp.speechEnd, AMOp.speechEnd,
        AMOp.speechEnd]).2 ++
      (amRun amReady [AMOp.speakOp (some "a"), AMOp.speakOp (some "b"),
        AMOp.speakOp (some "a"), AMOp.speechEnd, AMOp.speechEnd,
        AMOp.speechEnd]).1.message_queue =
      amReady.message_queue ++ enqueuedTexts [AMOp.speakOp (some "a"),
        AMOp.speakOp (some "b"), AMOp.speakOp (some "a"), AMOp.speechEnd,
        AMOp.speechEnd, AMOp.speechEnd] ∧
    singleFlight amReady.is_speaking (amRun amReady [AMOp.speakOp (some "a"),
        AMOp.speakOp (some "b"), AMOp.speakOp (some "a"), AMOp.speechEnd,
        AMOp.speechEnd, AMOp.speechEnd]).2 =
      some (amRun amReady [AMOp.speakOp (some "a"), AMOp.speakOp (some "b"),
        AMOp.speakOp (some "a"), AMOp.speechEnd, AMOp.speechEnd,
        AMOp.speechEnd]).1.is_speaking :=
  c7_dispatcher_invariants amReady [AMOp.speakOp (some "a"), AMOp.speakOp (some "b"),
    AMOp.speakOp (some "a"), AMOp.speechEnd, AMOp.speechEnd, AMOp.speechEnd] rfl

/-- C8 counterexample: CameraThread.stop contains no join — from a state in
which the acquisition thread is still alive, stop completes (running
cleared, device released) with the thread still alive, so stop does not
return only after the acquisition thread has exited. -/
theorem c8_counterexample_no_join :
    (CameraThread.mk true true false true).stop.thread_alive = true ∧
    (CameraThread.mk true true false true).stop.running = false ∧
    (CameraThread.mk true true false true).stop.released = true := by decide

/-- C8 amended: stop is idempotent and itself releases the device handle
before returning whenever one is held, but it performs no join: the
acquisition thread's liveness is untouched, so stop can return while the
thread is still running (the thread later observes running = false and
exits, its finally block calling stop again harmlessly). -/
theorem c8_amended_stop (c : CameraThread) :
    c.stop.stop = c.stop ∧ c.stop.running = false ∧
    c.stop.thread_alive = c.thread_alive ∧
    (c.camera_opened = true → c.stop.released = true) := by
  refine ⟨?_, rfl, rfl, ?_⟩
  · cases hc : c.camera_opened <;> simp [CameraThread.stop, hc]
  · intro h; simp [CameraThread.stop, h]

/-- Witness for C8's amended theorem at a concrete opened-camera state. -/
theorem c8_amended_witness :
    (CameraThread.mk true true false false).stop.stop =
      (CameraThread.mk true true false false).stop ∧
    (CameraThread.mk true true false false).stop.released = true :=
  ⟨(c8_amended_stop (CameraThread.mk true true false false)).1,
   (c8_amended_stop (CameraThread.mk true true false false)).2.2.2 rfl⟩

theorem update_stats_fire_inversion (s : WatermarkGenerator) (now r : Int) (c : Nat)
    (h : (s.update_stats now r c).1 = true) :
    (s.update_stats now r c).2 = s.bump c ∧ s.target_reached = true := by
  by_cases hT : 0 < s.target_pills
  · by_cases hc : c = s.target_pills
    · rcases Bool.eq_false_or_eq_true s.target_reached with hre | hre
      · rcases Bool.eq_false_or_eq_true s.success_message_shown with hm | hm
        · rw [update_stats_done s now r c hT hc hre (Or.inl hm)] at h
          simp at h
        · rcases Bool.eq_false_or_eq_true s.notification_triggered with hn | hn
          · rw [update_stats_done s now r c hT hc hre (Or.inr hn)] at h
            simp at h
          · rw [update_stats_armed s now r c hT hc hre hm hn]
            exact ⟨rfl, hre⟩
      · rw [update_stats_transition s now r c hT hc hre] at h
        simp at h
    · rw [update_stats_diverge s now r c hT hc] at h
      simp at h
  · have hz : s.target_pills = 0 := Nat.eq_zero_of_not_pos hT
    rw [update_stats_disabled s now r c hz] at h
    simp at h

theorem update_stats_invariant_step (s : WatermarkGenerator) (now r : Int) (c : Nat)
    (hpos : 0 < now)
    (ih : (s.target_reached = true → 0 < s.target_start_time) ∧
      (s.notification_triggered = true → s.target_reached = true)) :
    ((s.update_stats now r c).2.target_reached = true →
      0 < (s.update_stats now r c).2.target_start_time) ∧
    ((s.update_stats now r c).2.notification_triggered = true →
      (s.update_stats now r c).2.target_reached = true) := by
  by_cases hT : 0 < s.target_pills
  · by_cases hc : c = s.target_pills
    · rcases Bool.eq_false_or_eq_true s.target_reached with hre | hre
      · rcases Bool.eq_false_or_eq_true s.success_message_shown with hm | hm
        · rw [update_stats_done s now r c hT hc hre (Or.inl hm)]
          dsimp only
          refine ⟨fun hx => ?_, fun hx => ?_⟩
          · rw [bump_target_start_time]
            exact ih.1 (by rwa [bump_target_reached] at hx)
          · rw [bump_target_reached]
            exact ih.2 (by rwa [bump_notification_triggered] at hx)
        · rcases Bool.eq_false_or_eq_true s.notification_triggered with hn | hn
          · rw [update_stats_done s now r c hT hc hre (Or.inr hn)]
            dsimp only
            refine ⟨fun hx => ?_, fun hx => ?_⟩
            · rw [bump_target_start_time]
              exact ih.1 (by rwa [bump_target_reached] at hx)
            · rw [bump_target_reached]
              exact ih.2 (by rwa [bump_notification_triggered] at hx)
          · rw [update_stats_armed s now r c hT hc hre hm hn]
            dsimp only
            refine ⟨fun hx => ?_, fun hx => ?_⟩
            · rw [bump_target_start_time]
              exact ih.1 (by rwa [bump_target_reached] at hx)
            · rw [bump_target_reached]
              exact ih.2 (by rwa [bump_notification_triggered] at hx)
      · rw [update_stats_transition s now r c hT hc hre]
        dsimp only
        exact ⟨fun _ => hpos, fun hx => by simp at hx⟩
    · rw [update_stats_diverge s now r c hT hc]
      dsimp only
      refine ⟨fun hx => ?_, fun hx => ?_⟩ <;> simp at hx
  · have hz : s.target_pills = 0 := Nat.eq_zero_of_not_pos hT
    rw [update_stats_disabled s now r c hz]
    dsimp only
    refine ⟨fun hx => ?_, fun hx => ?_⟩ <;> simp at hx

/-- C9: every monitor state reachable under the prescribed protocol
satisfies the StabilityState invariant: a raised reached flag comes with a
recorded (positive wall-clock) reach time, and a raised notification-sent
flag comes with a raised reached flag. -/
theorem c9_reachable_invariant (s : WatermarkGenerator) (h : MonitorReachable s) :
    (s.target_reached = true → 0 < s.target_start_time) ∧
    (s.notification_triggered = true → s.target_reached = true) := by
  induction h with
  | init =>
    refine ⟨fun hx => ?_, fun hx => ?_⟩ <;> simp [WatermarkGenerator.init] at hx
  | set_target s n hr ih =>
    refine ⟨fun hx => ?_, fun hx => ?_⟩ <;>
      simp [WatermarkGenerator.set_target_pills] at hx
  | reset s hr ih =>
    refine ⟨fun hx => ?_, fun hx => ?_⟩ <;>
      simp [WatermarkGenerator.reset_stats] at hx
  | observe_quiet s now r c hr hpos hfalse ih =>
    exact update_stats_invariant_step s now r c hpos ih
  | observe_fire s now r c stamp hr hpos htrue ih =>
    have hinv := update_stats_fire_inversion s now r c htrue
    rw [hinv.1]
    refine ⟨fun hx => ?_, fun hx => ?_⟩
    · show 0 < ((s.bump c).mark_notification_triggered stamp).target_start_time
      rw [show ((s.bump c).mark_notification_triggered stamp).target_start_time =
        (s.bump c).target_start_time from rfl, bump_target_start_time]
      exact ih.1 hinv.2
    · show ((s.bump c).mark_notification_triggered stamp).target_reached = true
      rw [show ((s.bump c).mark_notification_triggered stamp).target_reached =
        (s.bump c).target_reached from rfl, bump_target_reached]
      exact hinv.2

/-- Witness for C9 at a concrete reachable mid-episode state: target 2 set,
then a count of 2 observed at time 10 (a quiet step). -/
theorem c9_reachable_invariant_witness :
    (wTransitioned.target_reached = true → 0 < wTransitioned.target_start_time) ∧
    (wTransitioned.notification_triggered = true →
      wTransitioned.target_reached = true) :=
  c9_reachable_invariant wTransitioned
    (MonitorReachable.observe_quiet (WatermarkGenerator.init.set_target_pills 2)
      10 3 2
      (MonitorReachable.set_target WatermarkGenerator.init 2 MonitorReachable.init)
      (by decide) (by decide))

/-- C10: calling AudioManager.speak with None, the empty string, or a
whitespace-only string is a silent no-op — the state (in particular the
pending message_queue) is unchanged and nothing is handed to the speech
engine. -/
theorem c10_blank_speak_noop (am : AudioManager) (t : Option String)
    (h : textIsBlank t = true) : am.speak t = (am, []) := by
  cases t with
  | none => unfold AudioManager.speak; split <;> rfl
  | some str =>
    have hb : str.data.all Char.isWhitespace = true := by
      simpa [textIsBlank] using h
    unfold AudioManager.speak
    split
    · rfl
    · simp [hb]

/-- Witness for C10: a whitespace-only announcement on the ready
dispatcher. -/
theorem c10_blank_speak_noop_witness : amReady.speak (some "  ") = (amReady, []) :=
  c10_blank_speak_noop amReady (some "  ") (by decide)
